import Mathlib

/-!
Verification of the sandboxed parallel job executor of `raw2jpeg`
(`common/executor.py`, configuration surface from `common/config.py`).

The Python source is shallowly embedded: machine state that the code reads
from the environment (thread count of the host, configuration values, the
outcome of each external renderer subprocess, the shutdown flag set by the
signal handler) is passed in explicitly; the dynamic `dict` records used by
the code become structures whose optional keys become `Option` fields.
-/

namespace Raw2Jpeg

/-! ## Data model

A `Job` mirrors the job dictionaries flowing through the executor.  The
planner produces dicts with keys `input_folder`, `output_template` and
`file_count`; the zero-profile error path of `execute_jobs` builds dicts with
keys `input_folder`, `error`, `success` and `failed_files` and appends them to
the same `failed_jobs` list, so the embedded record carries every key that can
occur, absent keys being `none`. -/

structure Job where
  input_folder : String
  output_template : Option String
  file_count : Option Nat
  error : Option String
  success : Option Bool
  failed_files : Option (List String)
deriving DecidableEq, Repr

/-- Result dictionary built by `SandboxExecutor._run_conversion` (and by the
exception handler in `execute_jobs`). -/
structure JobResult where
  success : Bool
  folder : String
  failed_files : List String
  error : Option String
deriving DecidableEq, Repr

/-- Aggregate result dictionary of `SandboxExecutor.execute_jobs`. -/
structure BatchResult where
  completed : Nat
  failed : Nat
  failed_jobs : List Job
  results : List JobResult
  files_completed : Nat
deriving DecidableEq, Repr

/-- Aggregate result dictionary of `SandboxExecutor.retry_failed_jobs`
(it has no `files_completed` key). -/
structure RetryResult where
  completed : Nat
  failed : Nat
  failed_jobs : List Job
  results : List JobResult
deriving DecidableEq, Repr

/-! ## Hexadecimal rendering (`hex(mask).replace("0x","").upper()`) -/

/-- Upper-case hexadecimal digit, as produced by Python's `hex` composed with
`str.upper`. -/
def hexDigitChar (n : Nat) : Char :=
  if n < 10 then Char.ofNat (48 + n) else Char.ofNat (55 + n)

/-- Digits of `n` in base 16, most significant first, with structural fuel
(`fuel > n` suffices, as the value shrinks at every step). -/
def hexDigitsGo : Nat → Nat → List Char
  | 0, _ => []
  | fuel + 1, n =>
    if n < 16 then [hexDigitChar n]
    else hexDigitsGo fuel (n / 16) ++ [hexDigitChar (n % 16)]

/-- Digits of `n` in base 16, most significant first; `['0']` for `n = 0`,
matching `hex(0) = "0x0"`. -/
def hexDigits (n : Nat) : List Char :=
  hexDigitsGo (n + 1) n

/-- `hex(n).replace("0x","").upper()` for a nonnegative `n`. -/
def pyUpperHex (n : Nat) : String :=
  String.mk (hexDigits n)

/-- Value of an upper-case hexadecimal digit. -/
def hexDigitVal (c : Char) : Nat :=
  if 48 ≤ c.toNat ∧ c.toNat ≤ 57 then c.toNat - 48
  else if 65 ≤ c.toNat ∧ c.toNat ≤ 70 then c.toNat - 55
  else 0

/-- Read a string as a hexadecimal integer. -/
def fromHexString (s : String) : Nat :=
  s.data.foldl (fun a c => 16 * a + hexDigitVal c) 0

/-! ## `get_affinity_mask` (executor.py, lines 40–45) -/

/-- The loop body accumulator of `get_affinity_mask`:
`for i in ...: mask |= (1 << i)`. -/
def maskLoop (mask : Nat) : List Nat → Nat
  | [] => mask
  | i :: is => maskLoop (mask ||| (1 <<< i)) is

/-- Numeric value of the affinity mask: bits `start_thread .. end_thread`
(inclusive) set, accumulated exactly as the Python loop over
`range(start_thread, end_thread + 1)` does. -/
def affinityMaskNat (start_thread end_thread : Nat) : Nat :=
  maskLoop 0 (List.range' start_thread (end_thread + 1 - start_thread))

/-- `get_affinity_mask(start_thread, end_thread)`: the hex string of the mask,
upper-cased, without the `0x` prefix. -/
def get_affinity_mask (start_thread end_thread : Nat) : String :=
  pyUpperHex (affinityMaskNat start_thread end_thread)

/-! ## `generate_worker_profiles` (executor.py, lines 48–114) -/

/-- One worker profile dictionary. -/
structure WorkerProfile where
  worker_id : Nat
  ptype : String
  start_thread : Nat
  end_thread : Nat
  hex_mask : String
  use_gpu : Bool
deriving DecidableEq, Repr

/-- The configuration values `generate_worker_profiles` reads (parsed by
`configparser.getint`, hence arbitrary integers). -/
structure PerfConfig where
  reserved_core_count : Int
  cpu_threads_gpu_instance : Int
  cpu_threads_cpu_instance : Int
deriving DecidableEq, Repr

/-- Mutable state of the two allocation loops of `generate_worker_profiles`:
`current_end` and `assigned_threads` are Python ints (so `Int` here),
`worker_id` stays positive. -/
structure GenState where
  currentEnd : Int
  workerId : Nat
  assigned : Int
  profiles : List WorkerProfile
deriving Repr

/-- One iteration of an allocation loop body of `generate_worker_profiles`:
skip (`continue`) when the budget check fails, otherwise append a profile and
advance the state. -/
def allocStep (width maxAlloc : Int) (isGpu : Bool) (s : GenState) : GenState :=
  if s.assigned + width > maxAlloc then s
  else
    let start0 : Int := max 0 (s.currentEnd - width + 1)
    let se : Int × Int :=
      if start0 > s.currentEnd then (0, 0) else (start0, s.currentEnd)
    { currentEnd := se.1 - 1
      workerId := s.workerId + 1
      assigned := s.assigned + width
      profiles := s.profiles ++
        [{ worker_id := s.workerId
           ptype := if isGpu then "gpu" else "cpu"
           start_thread := se.1.toNat
           end_thread := se.2.toNat
           hex_mask := get_affinity_mask se.1.toNat se.2.toNat
           use_gpu := isGpu }] }

/-- `n` iterations of an allocation loop. -/
def allocIter (width maxAlloc : Int) (isGpu : Bool) : Nat → GenState → GenState
  | 0, s => s
  | n + 1, s => allocIter width maxAlloc isGpu n (allocStep width maxAlloc isGpu s)

/-- `generate_worker_profiles(max_workers, max_gpu, job_count)`.
`total_threads` stands for `os.cpu_count() or 4` and `cfg` for the values read
from the global configuration. -/
def generate_worker_profiles (cfg : PerfConfig) (total_threads : Nat)
    (max_workers max_gpu : Int) (job_count : Nat) : List WorkerProfile :=
  let reserve : Int := max 0 cfg.reserved_core_count
  let maxAlloc : Int := (total_threads : Int) - reserve
  let effective_workers : Int := min max_workers (job_count : Int)
  let gpu_count : Int := min effective_workers max_gpu
  let cpu_count : Int := max 0 (effective_workers - gpu_count)
  let s0 : GenState := ⟨(total_threads : Int) - 1, 1, 0, []⟩
  let s1 := allocIter cfg.cpu_threads_gpu_instance maxAlloc true gpu_count.toNat s0
  let s2 := allocIter cfg.cpu_threads_cpu_instance maxAlloc false cpu_count.toNat s1
  s2.profiles

/-- The set of thread indices `[start_thread, end_thread]` (inclusive) pinned
by one profile. -/
def threadSet (p : WorkerProfile) : Finset Nat :=
  Finset.Icc p.start_thread p.end_thread

/-- Union of the thread ranges of a list of profiles. -/
def coveredThreads (ps : List WorkerProfile) : Finset Nat :=
  ps.foldr (fun p acc => threadSet p ∪ acc) ∅

/-- Invariant of the allocation loops of `generate_worker_profiles`: the
allocation is contiguous from the top thread index down to `currentEnd + 1`,
the counter `assigned` dominates the number of threads actually covered and
stays within the budget, and all profile ranges are disjoint and lie above
`currentEnd`. -/
structure GenInv (total : Nat) (maxAlloc : Int) (s : GenState) : Prop where
  ce_lb : -1 ≤ s.currentEnd
  ce_ub : s.currentEnd ≤ (total : Int) - 1
  assigned_nonneg : 0 ≤ s.assigned
  assigned_le : s.assigned ≤ maxAlloc
  card_le : (total : Int) - 1 - s.currentEnd ≤ s.assigned
  covered_eq : coveredThreads s.profiles = Finset.Ico (s.currentEnd + 1).toNat total
  disj : s.profiles.Pairwise (fun p q => Disjoint (threadSet p) (threadSet q))
  lo_bound : ∀ p ∈ s.profiles, s.currentEnd < (p.start_thread : Int)

/-! ## `SandboxExecutor._extract_failed_files` (executor.py, lines 203–211)

The regex `([A-Za-z]:[^\s]+\.(arw|cr2|cr3|nef|dng))` with `re.IGNORECASE` is
embedded as a character-level matcher.  `re.search` returns the match at the
leftmost feasible start position; at a given start, the greedy `[^\s]+`
backtracks from the longest run, so the match extends to the *last* occurrence
of `.` + extension inside the maximal non-whitespace run after the drive
prefix, with at least one character between the colon and that dot. -/

/-- Python's `\s` on the characters that can occur inside one line. -/
def isPySpace (c : Char) : Bool :=
  c = ' ' ∨ c = '\t' ∨ c = '\n' ∨ c = '\r' ∨ c = '\x0b' ∨ c = '\x0c'

/-- `[A-Za-z]`. -/
def isDriveLetter (c : Char) : Bool :=
  ('A' ≤ c ∧ c ≤ 'Z') ∨ ('a' ≤ c ∧ c ≤ 'z')

/-- Case-insensitive test against the alternation `arw|cr2|cr3|nef|dng`. -/
def extTriple (a b c : Char) : Bool :=
  [a.toLower, b.toLower, c.toLower] = ['a', 'r', 'w'] ∨
  [a.toLower, b.toLower, c.toLower] = ['c', 'r', '2'] ∨
  [a.toLower, b.toLower, c.toLower] = ['c', 'r', '3'] ∨
  [a.toLower, b.toLower, c.toLower] = ['n', 'e', 'f'] ∨
  [a.toLower, b.toLower, c.toLower] = ['d', 'n', 'g']

/-- Does `\.(arw|cr2|cr3|nef|dng)` (ignoring case) match inside `run` at
offset `k`? -/
def dotExtAt (run : List Char) (k : Nat) : Bool :=
  match run.drop k with
  | c0 :: d1 :: d2 :: d3 :: _ => c0 = '.' && extTriple d1 d2 d3
  | _ => false

/-- Largest offset `k ≥ 1` of `run` at which `\.(ext)` matches: the greedy
`[^\s]+` (at least one character) backtracks from the longest run, so the
first offset it succeeds at is the largest. -/
def lastDotExt (run : List Char) : Option Nat :=
  ((List.range run.length).filter (fun k => 1 ≤ k ∧ dotExtAt run k)).getLast?

/-- Try to match the whole regex at the head of `l`; on success return the
matched characters (= group 1). -/
def matchAt (l : List Char) : Option (List Char) :=
  match l with
  | c :: c2 :: rest =>
    if c2 = ':' && isDriveLetter c then
      match lastDotExt (rest.takeWhile (fun ch => ! isPySpace ch)) with
      | some k => some (c :: ':' :: (rest.takeWhile (fun ch => ! isPySpace ch)).take (k + 4))
      | none => none
    else none
  | _ => none

/-- `re.search`: try every start position, leftmost first. -/
def searchLine : List Char → Option (List Char)
  | [] => none
  | c :: cs =>
    match matchAt (c :: cs) with
    | some m => some m
    | none => searchLine cs

/-- Split a character list at every separator (Python `str.split` with an
explicit separator: empty segments are kept, the empty input gives one empty
segment). -/
def splitOnPred (p : Char → Bool) : List Char → List (List Char)
  | [] => [[]]
  | c :: cs =>
    if p c then [] :: splitOnPred p cs
    else
      match splitOnPred p cs with
      | t :: ts => (c :: t) :: ts
      | [] => [[c]]

/-- `SandboxExecutor._extract_failed_files(stderr)`. -/
def extract_failed_files (stderr : String) : List String :=
  if stderr = "" then []
  else (splitOnPred (fun c => c = '\n') stderr.data).filterMap
    (fun line => (searchLine line).map String.mk)

/-- Modelled from the spec: the scan the specification describes — candidate
paths are the whitespace-separated tokens of the stderr text ending
(case-insensitively) in one of the nine RAW extensions
`.arw .cr2 .cr3 .nef .dng .orf .rw2 .raf .pef`. -/
def spec_extract_failed_files (stderr : String) : List String :=
  let exts : List (List Char) :=
    [['.','a','r','w'], ['.','c','r','2'], ['.','c','r','3'],
     ['.','n','e','f'], ['.','d','n','g'], ['.','o','r','f'],
     ['.','r','w','2'], ['.','r','a','f'], ['.','p','e','f']]
  ((splitOnPred isPySpace stderr.data).filter
    (fun tok => exts.any (fun e => tok ≠ [] ∧ (tok.map Char.toLower).drop (tok.length - 4) = e))).map
    String.mk

/-! ## `SandboxExecutor._run_conversion` (executor.py, lines 140–201)

The subprocess call itself is the environment: its observable outcome is
either a completed run with a return code and captured stderr text, or a
raised exception with a message. -/

/-- Outcome of the `subprocess.run` call (or of the code around it). -/
inductive SubprocOutcome where
  | ran (returncode : Int) (stderr : String)
  | exn (msg : String)
deriving DecidableEq, Repr

/-- `SandboxExecutor._run_conversion(job, profile)`: the result dictionary it
returns, given the subprocess outcome.  (The command string, the scratch
config directory and its cleanup do not affect the returned dictionary.) -/
def run_conversion (job : Job) (outcome : SubprocOutcome) : JobResult :=
  let base : JobResult :=
    { success := false, folder := job.input_folder, failed_files := [], error := none }
  match outcome with
  | .ran rc stderr =>
    if rc = 0 then { base with success := true }
    else
      { base with
        error := some (if stderr = "" then "Exit code: " ++ toString rc else stderr)
        failed_files := extract_failed_files stderr }
  | .exn msg => { base with error := some msg }

/-! ## `SandboxExecutor.execute_jobs` (executor.py, lines 213–327)

The scheduler is embedded with a sequentialized schedule: results are
collected one at a time, in job order; `run` gives the `JobResult` that the
`task_wrapper` of a job delivers (covering `_run_conversion` and the
exception handler around `future.result()`), and `stop n` is the value of the
`_shutdown_requested` flag observed after the `n`-th result has been
collected and tallied — the in-flight job is always completed and recorded
before the flag is consulted, and a set flag breaks the collection loop,
abandoning all remaining jobs. -/

/-- Executor state and environment: configuration fields read in
`SandboxExecutor.__init__`, the host thread count, the per-job outcome, and
the shutdown-flag schedule. -/
structure ExecCtx where
  total_threads : Nat
  max_workers : Int
  gpu_instances : Int
  max_retry : Int
  perf : PerfConfig
  run : Job → JobResult
  stop : Nat → Bool

/-- The `failed_jobs` entry built on the zero-profile path of
`execute_jobs` (lines 249–256): a fresh dictionary, not the original job. -/
def noProfileEntry (job : Job) : Job :=
  { input_folder := job.input_folder
    output_template := none
    file_count := none
    error := some "No worker profiles available."
    success := some false
    failed_files := some [] }

/-- The `as_completed` collection loop of `execute_jobs` (lines 282–320),
sequentialized: tally one result, then break if the shutdown flag is set. -/
def execLoop (run : Job → JobResult) (stop : Nat → Bool) :
    List Job → Nat → BatchResult → BatchResult
  | [], _, acc => acc
  | job :: rest, n, acc =>
    let r := run job
    let acc' : BatchResult :=
      { completed := acc.completed + (if r.success then 1 else 0)
        failed := acc.failed + (if r.success then 0 else 1)
        failed_jobs := acc.failed_jobs ++ (if r.success then [] else [job])
        results := acc.results ++ [r]
        files_completed := acc.files_completed + job.file_count.getD 0 }
    if stop (n + 1) then acc' else execLoop run stop rest (n + 1) acc'

/-- `SandboxExecutor.execute_jobs(jobs)`. -/
def execute_jobs (ctx : ExecCtx) (jobs : List Job) : BatchResult :=
  if jobs = [] then ⟨0, 0, [], [], 0⟩
  else
    let profiles := generate_worker_profiles ctx.perf ctx.total_threads
      ctx.max_workers ctx.gpu_instances jobs.length
    if profiles.length = 0 then
      { completed := 0
        failed := jobs.length
        failed_jobs := jobs.map noProfileEntry
        results := []
        files_completed := 0 }
    else execLoop ctx.run ctx.stop jobs 0 ⟨0, 0, [], [], 0⟩

/-! ## `SandboxExecutor.retry_failed_jobs` (executor.py, lines 329–360) -/

/-- `max_retries = max_retries or self.max_retry`: Python `or` substitutes
the default for the falsy arguments `None` and `0`. -/
def resolveMaxRetries (max_retries : Option Int) (default_retry : Int) : Int :=
  match max_retries with
  | none => default_retry
  | some k => if k = 0 then default_retry else k

/-- The retry loop (`for attempt in range(1, max_retries + 1)`), with the
iteration count as fuel; `remaining` is re-submitted to `execute_jobs` each
round until it is empty or the rounds run out. -/
def retryLoop (ctx : ExecCtx) : Nat → List Job → Nat → List JobResult →
    Nat × List JobResult × List Job
  | 0, remaining, completed, resultsAcc => (completed, resultsAcc, remaining)
  | n + 1, remaining, completed, resultsAcc =>
    if remaining = [] then (completed, resultsAcc, remaining)
    else
      let r := execute_jobs ctx remaining
      retryLoop ctx n r.failed_jobs (completed + r.completed) (resultsAcc ++ r.results)

/-- `SandboxExecutor.retry_failed_jobs(failed_jobs, max_retries)`. -/
def retry_failed_jobs (ctx : ExecCtx) (failed_jobs : List Job)
    (max_retries : Option Int) : RetryResult :=
  let mr := resolveMaxRetries max_retries ctx.max_retry
  let out := retryLoop ctx mr.toNat (failed_jobs) 0 []
  { completed := out.1
    failed := out.2.2.length
    failed_jobs := out.2.2
    results := out.2.1 }

/-! ## Concrete fixtures used by witnesses and counterexamples -/

/-- A planner-produced job: three RAW files in one folder. -/
def jobA : Job :=
  ⟨"C:/photos/A", some "C:/out/$(FILE_NAME).jpg", some 3, none, none, none⟩

/-- A second planner-produced job. -/
def jobB : Job :=
  ⟨"C:/photos/B", some "C:/out/$(FILE_NAME).jpg", some 2, none, none, none⟩

/-- A third planner-produced job. -/
def jobC : Job :=
  ⟨"C:/photos/C", some "C:/out/$(FILE_NAME).jpg", some 4, none, none, none⟩

/-- A renderer stub that always exits non-zero. -/
def failRun (j : Job) : JobResult :=
  ⟨false, j.input_folder, [], some "Exit code: 1"⟩

/-- A renderer stub that always exits 0. -/
def okRun (j : Job) : JobResult :=
  ⟨true, j.input_folder, [], none⟩

/-- The shutdown flag is never raised. -/
def noStop (_ : Nat) : Bool := false

/-- Context on a 16-thread host with the default configuration and a renderer
that always fails; `generate_worker_profiles` yields three profiles here. -/
def ctxNormal : ExecCtx := ⟨16, 3, 2, 5, ⟨4, 4, 4⟩, failRun, noStop⟩

/-- Same host and renderer but `reserved_core_count = 8 > total_threads = 4`:
the allocatable budget is negative and no worker profile fits. -/
def ctxZeroProfiles : ExecCtx := ⟨4, 3, 2, 5, ⟨8, 4, 4⟩, failRun, noStop⟩

/-- Context whose shutdown flag is observed set right after the second result
is collected. -/
def ctxStopAfterTwo : ExecCtx :=
  ⟨16, 3, 2, 5, ⟨4, 4, 4⟩, failRun, fun n => n = 2⟩

/-! ## Lemmas: the affinity mask -/

theorem maskLoop_testBit (l : List Nat) (m i : Nat) :
    (maskLoop m l).testBit i = (m.testBit i || decide (i ∈ l)) := by
  induction l generalizing m with
  | nil => simp [maskLoop]
  | cons j t ih =>
    rw [maskLoop, ih]
    have hsl : (1 <<< j) = 2 ^ j := by rw [Nat.shiftLeft_eq, Nat.one_mul]
    rw [hsl, Nat.testBit_or, Nat.testBit_two_pow]
    have hmem : decide (i ∈ j :: t) = (decide (j = i) || decide (i ∈ t)) := by
      by_cases h1 : j = i <;> by_cases h2 : i ∈ t <;>
        simp [List.mem_cons, h1, h2] <;> omega
    rw [hmem, Bool.or_assoc]

theorem affinityMaskNat_testBit (s e i : Nat) (hse : s ≤ e) :
    (affinityMaskNat s e).testBit i = decide (s ≤ i ∧ i ≤ e) := by
  rw [affinityMaskNat, maskLoop_testBit, Nat.zero_testBit, Bool.false_or]
  have : i ∈ List.range' s (e + 1 - s) ↔ s ≤ i ∧ i ≤ e := by
    rw [List.mem_range'_1]
    omega
  simp [this]

theorem hexDigit_roundtrip : ∀ d, d < 16 → hexDigitVal (hexDigitChar d) = d := by
  decide

theorem fromHex_foldl_hexDigitsGo (fuel : Nat) :
    ∀ n, n < fuel → (hexDigitsGo fuel n).foldl (fun a c => 16 * a + hexDigitVal c) 0 = n := by
  induction fuel with
  | zero => intro n hn; omega
  | succ fuel ih =>
    intro n _
    rw [hexDigitsGo]
    by_cases h : n < 16
    · rw [if_pos h]
      simp [hexDigit_roundtrip n h]
    · rw [if_neg h, List.foldl_append]
      have hdiv : n / 16 < fuel := by omega
      rw [ih (n / 16) hdiv]
      simp [hexDigit_roundtrip (n % 16) (Nat.mod_lt n (by omega))]
      omega

theorem fromHex_foldl_hexDigits (n : Nat) :
    (hexDigits n).foldl (fun a c => 16 * a + hexDigitVal c) 0 = n :=
  fromHex_foldl_hexDigitsGo (n + 1) n (Nat.lt_succ_self n)

theorem fromHexString_pyUpperHex (n : Nat) : fromHexString (pyUpperHex n) = n := by
  rw [fromHexString, pyUpperHex]
  exact fromHex_foldl_hexDigits n

/-- **C8** (confirmed). For all `(start, end)` with
`0 ≤ start ≤ end < total_threads`, the string returned by
`get_affinity_mask(start, end)`, read as a hexadecimal integer, has a set bit
at exactly the positions in `[start, end]` — so exactly `end − start + 1`
bits are set, all within `[start, end]`, and zero bits elsewhere. -/
theorem get_affinity_mask_bits (total_threads s e : Nat)
    (hse : s ≤ e) (het : e < total_threads) :
    (∀ i, (fromHexString (get_affinity_mask s e)).testBit i = true ↔ s ≤ i ∧ i ≤ e) ∧
    ((Finset.range (e + 1)).filter
      (fun i => (fromHexString (get_affinity_mask s e)).testBit i = true)).card
      = e - s + 1 := by
  have hval : fromHexString (get_affinity_mask s e) = affinityMaskNat s e := by
    rw [get_affinity_mask, fromHexString_pyUpperHex]
  have hbit : ∀ i, (fromHexString (get_affinity_mask s e)).testBit i = true ↔ s ≤ i ∧ i ≤ e := by
    intro i
    rw [hval, affinityMaskNat_testBit s e i hse]
    simp
  refine ⟨hbit, ?_⟩
  have hfe : (Finset.range (e + 1)).filter
      (fun i => (fromHexString (get_affinity_mask s e)).testBit i = true) = Finset.Icc s e := by
    apply Finset.ext
    intro i
    rw [Finset.mem_filter, Finset.mem_range, Finset.mem_Icc, hbit i]
    omega
  rw [hfe, Nat.card_Icc]
  omega

/-- Witness for C8 at `total_threads = 16`, `start = 4`, `end = 7`. -/
theorem get_affinity_mask_bits_witness :
    (∀ i, (fromHexString (get_affinity_mask 4 7)).testBit i = true ↔ 4 ≤ i ∧ i ≤ 7) ∧
    ((Finset.range (7 + 1)).filter
      (fun i => (fromHexString (get_affinity_mask 4 7)).testBit i = true)).card
      = 7 - 4 + 1 :=
  get_affinity_mask_bits 16 4 7 (by decide) (by decide)

/-- **C9** (confirmed). With `total_threads = 16`, `reserved_cores = 4`,
`max_workers = 3`, `max_gpu_workers = 2`, `job_count = 5` and thread widths
4/4, `generate_worker_profiles` returns exactly three profiles: gpu workers 1
and 2 on threads [12-15] and [8-11] (allocated from the highest index
downward) and cpu worker 3 on threads [4-7], ids numbered sequentially from 1
in assignment order; their union covers the full allocatable budget of 12
threads. -/
theorem generate_worker_profiles_example :
    generate_worker_profiles ⟨4, 4, 4⟩ 16 3 2 5 =
      [⟨1, "gpu", 12, 15, "F000", true⟩,
       ⟨2, "gpu", 8, 11, "F00", true⟩,
       ⟨3, "cpu", 4, 7, "F0", false⟩] := by
  rfl

/-! ## Lemmas: the collection loop of `execute_jobs` -/

/-- Full characterization of the collection loop when the shutdown flag never
gets raised: every job is processed in order and tallied. -/
theorem execLoop_no_stop (run : Job → JobResult) (stop : Nat → Bool)
    (hstop : ∀ m, stop m = false) :
    ∀ (jobs : List Job) (n : Nat) (acc : BatchResult),
    execLoop run stop jobs n acc =
      { completed := acc.completed + (jobs.filter (fun j => (run j).success)).length
        failed := acc.failed + (jobs.filter (fun j => !(run j).success)).length
        failed_jobs := acc.failed_jobs ++ jobs.filter (fun j => !(run j).success)
        results := acc.results ++ jobs.map run
        files_completed := acc.files_completed
          + (jobs.map (fun j => j.file_count.getD 0)).sum } := by
  intro jobs
  induction jobs with
  | nil => intro n acc; simp [execLoop]
  | cons j rest ih =>
    intro n acc
    rw [execLoop]
    simp only [hstop (n + 1), if_false]
    rw [ih]
    by_cases h : (run j).success <;>
      simp [List.filter_cons, h, List.append_assoc, Nat.add_assoc, Nat.add_comm,
        Nat.add_left_comm]

/-- The running tallies always balance: each collected result adds exactly one
to `completed + failed` and one entry to `results`, whatever the shutdown
schedule does. -/
theorem execLoop_counts (run : Job → JobResult) (stop : Nat → Bool) :
    ∀ (jobs : List Job) (n : Nat) (acc : BatchResult),
    (execLoop run stop jobs n acc).completed + (execLoop run stop jobs n acc).failed
        + acc.results.length
      = acc.completed + acc.failed + (execLoop run stop jobs n acc).results.length := by
  intro jobs
  induction jobs with
  | nil => intro n acc; simp [execLoop]
  | cons j rest ih =>
    intro n acc
    simp only [execLoop]
    by_cases hs : stop (n + 1)
    · rw [if_pos hs]
      by_cases h : (run j).success <;> simp [h] <;> omega
    · rw [if_neg hs]
      have := ih (n + 1)
        { completed := acc.completed + (if (run j).success then 1 else 0)
          failed := acc.failed + (if (run j).success then 0 else 1)
          failed_jobs := acc.failed_jobs ++ (if (run j).success then [] else [j])
          results := acc.results ++ [run j]
          files_completed := acc.files_completed + j.file_count.getD 0 }
      by_cases h : (run j).success <;> simp [h] at this ⊢ <;> omega

/-! ## C2: `files_completed` -/

/-- **C2** (counterexample). A batch with a single job of `file_count = 3`
whose renderer invocation fails yields `files_completed = 3` although no job
completed successfully: the file counts of failed jobs are included, contrary
to the claim. -/
theorem files_completed_includes_failed_jobs_cex :
    (execute_jobs ctxNormal [jobA]).files_completed = 3 ∧
    (execute_jobs ctxNormal [jobA]).completed = 0 ∧
    ((execute_jobs ctxNormal [jobA]).results.filter (fun r => r.success)).length = 0 := by
  decide

/-- **C2** (amended). For every `execute_jobs` call that runs to completion
(no cancellation, at least one worker profile), `files_completed` equals the
sum of `file_count` over *all* jobs of the batch — the counter advances for
every collected result, failed jobs included. -/
theorem files_completed_sums_all_processed_jobs (ctx : ExecCtx) (jobs : List Job)
    (hprof : generate_worker_profiles ctx.perf ctx.total_threads ctx.max_workers
      ctx.gpu_instances jobs.length ≠ [])
    (hstop : ∀ n, ctx.stop n = false) :
    (execute_jobs ctx jobs).files_completed
      = (jobs.map (fun j => j.file_count.getD 0)).sum := by
  rw [execute_jobs]
  by_cases hj : jobs = []
  · subst hj; simp
  · rw [if_neg hj]
    have hlen : (generate_worker_profiles ctx.perf ctx.total_threads ctx.max_workers
        ctx.gpu_instances jobs.length).length ≠ 0 := by
      simpa [List.length_eq_zero] using hprof
    rw [if_neg hlen]
    rw [execLoop_no_stop ctx.run ctx.stop hstop jobs 0 ⟨0, 0, [], [], 0⟩]
    simp

/-- Witness for the amended C2: the single failing job of `file_count = 3`
gives `files_completed = 3`. -/
theorem files_completed_sums_all_processed_jobs_witness :
    (execute_jobs ctxNormal [jobA]).files_completed
      = ([jobA].map (fun j => j.file_count.getD 0)).sum :=
  files_completed_sums_all_processed_jobs ctxNormal [jobA] (by decide) (fun _ => rfl)

/-! ## C4: `completed + failed` versus `len(results)` -/

/-- **C4** (counterexample). On the zero-profile capacity path every job is
counted in `failed` but no `JobResult` is appended to `results`, so
`completed + failed = 1 ≠ 0 = len(results)` for a one-job batch. -/
theorem counts_vs_results_zero_profiles_cex :
    (execute_jobs ctxZeroProfiles [jobA]).completed
        + (execute_jobs ctxZeroProfiles [jobA]).failed = 1 ∧
    (execute_jobs ctxZeroProfiles [jobA]).results.length = 0 := by
  decide

/-- **C4** (amended). `completed + failed = len(results)` holds on the normal
and cancellation return paths (and for the empty batch), every counted
success or failure corresponding to exactly one collected `JobResult`; on the
zero-profile capacity path, however, `completed + failed = len(jobs)` while
`results` stays empty. -/
theorem execute_jobs_counts_match_results (ctx : ExecCtx) (jobs : List Job) :
    ((generate_worker_profiles ctx.perf ctx.total_threads ctx.max_workers
        ctx.gpu_instances jobs.length ≠ [] ∨ jobs = []) →
      (execute_jobs ctx jobs).completed + (execute_jobs ctx jobs).failed
        = (execute_jobs ctx jobs).results.length) ∧
    ((generate_worker_profiles ctx.perf ctx.total_threads ctx.max_workers
        ctx.gpu_instances jobs.length = [] ∧ jobs ≠ []) →
      (execute_jobs ctx jobs).completed + (execute_jobs ctx jobs).failed = jobs.length ∧
      (execute_jobs ctx jobs).results = []) := by
  constructor
  · intro h
    rw [execute_jobs]
    by_cases hj : jobs = []
    · subst hj; simp
    · rw [if_neg hj]
      have hprof : generate_worker_profiles ctx.perf ctx.total_threads ctx.max_workers
          ctx.gpu_instances jobs.length ≠ [] := by
        rcases h with h | h
        · exact h
        · exact absurd h hj
      have hlen : (generate_worker_profiles ctx.perf ctx.total_threads ctx.max_workers
          ctx.gpu_instances jobs.length).length ≠ 0 := by
        simpa [List.length_eq_zero] using hprof
      rw [if_neg hlen]
      have := execLoop_counts ctx.run ctx.stop jobs 0 ⟨0, 0, [], [], 0⟩
      simpa using this
  · rintro ⟨hprof, hj⟩
    rw [execute_jobs, if_neg hj]
    have hlen : (generate_worker_profiles ctx.perf ctx.total_threads ctx.max_workers
        ctx.gpu_instances jobs.length).length = 0 := by
      simp [hprof]
    rw [if_pos hlen]
    simp

/-- Witness for the amended C4, both conjuncts at concrete inputs: the normal
path balances the counts against `results`, the zero-profile path does not. -/
theorem execute_jobs_counts_match_results_witness :
    ((execute_jobs ctxNormal [jobA]).completed + (execute_jobs ctxNormal [jobA]).failed
      = (execute_jobs ctxNormal [jobA]).results.length) ∧
    ((execute_jobs ctxZeroProfiles [jobA]).completed
        + (execute_jobs ctxZeroProfiles [jobA]).failed = 1 ∧
      (execute_jobs ctxZeroProfiles [jobA]).results = []) :=
  ⟨(execute_jobs_counts_match_results ctxNormal [jobA]).1 (Or.inl (by decide)),
   by
    have := (execute_jobs_counts_match_results ctxZeroProfiles [jobA]).2 ⟨by decide, by decide⟩
    simpa using this⟩

/-! ## C5: the zero-profile capacity path -/

/-- **C5** (counterexample). On the zero-profile path the single entry of
`failed_jobs` is a freshly built error record, not the original `Job`: it
lacks `output_template` and `file_count`, so `failed_jobs ≠ [jobA]`. -/
theorem zero_profiles_failed_jobs_not_original_cex :
    (execute_jobs ctxZeroProfiles [jobA]).failed = 1 ∧
    (execute_jobs ctxZeroProfiles [jobA]).failed_jobs ≠ [jobA] := by
  decide

/-- **C5** (amended). If profile generation yields zero profiles,
`execute_jobs` marks every job as failed with the descriptive error
`"No worker profiles available."` and returns immediately without launching
any renderer subprocess (the result does not depend on the renderer outcome
at all) — but each `failed_jobs` entry is a fresh record holding only
`input_folder`, the error text, `success = False` and an empty `failed_files`
list; the original job's `output_template` and `file_count` are absent, so
the entries are not the original `Job` records. -/
theorem zero_profiles_path_characterization (ctx : ExecCtx) (jobs : List Job)
    (hj : jobs ≠ [])
    (hprof : generate_worker_profiles ctx.perf ctx.total_threads ctx.max_workers
      ctx.gpu_instances jobs.length = []) :
    execute_jobs ctx jobs =
      { completed := 0
        failed := jobs.length
        failed_jobs := jobs.map noProfileEntry
        results := []
        files_completed := 0 } ∧
    (∀ j ∈ jobs, (noProfileEntry j).input_folder = j.input_folder ∧
      (noProfileEntry j).error = some "No worker profiles available." ∧
      (noProfileEntry j).success = some false ∧
      (noProfileEntry j).failed_files = some [] ∧
      (noProfileEntry j).output_template = none ∧
      (noProfileEntry j).file_count = none) ∧
    (∀ run' : Job → JobResult,
      execute_jobs { ctx with run := run' } jobs = execute_jobs ctx jobs) := by
  have hlen : (generate_worker_profiles ctx.perf ctx.total_threads ctx.max_workers
      ctx.gpu_instances jobs.length).length = 0 := by
    simp [hprof]
  refine ⟨?_, ?_, ?_⟩
  · rw [execute_jobs, if_neg hj, if_pos hlen]
  · intro j _
    exact ⟨rfl, rfl, rfl, rfl, rfl, rfl⟩
  · intro run'
    rw [execute_jobs, execute_jobs, if_neg hj, if_neg hj]
    simp only
    rw [if_pos hlen, if_pos hlen]

/-- Witness for the amended C5 at the concrete zero-profile context. -/
theorem zero_profiles_path_characterization_witness :
    execute_jobs ctxZeroProfiles [jobA] =
      { completed := 0
        failed := [jobA].length
        failed_jobs := [jobA].map noProfileEntry
        results := []
        files_completed := 0 } ∧
    (∀ j ∈ [jobA], (noProfileEntry j).input_folder = j.input_folder ∧
      (noProfileEntry j).error = some "No worker profiles available." ∧
      (noProfileEntry j).success = some false ∧
      (noProfileEntry j).failed_files = some [] ∧
      (noProfileEntry j).output_template = none ∧
      (noProfileEntry j).file_count = none) ∧
    (∀ run' : Job → JobResult,
      execute_jobs { ctxZeroProfiles with run := run' } [jobA]
        = execute_jobs ctxZeroProfiles [jobA]) :=
  zero_profiles_path_characterization ctxZeroProfiles [jobA] (by decide) (by decide)

/-! ## C6: cancellation mid-batch -/

/-- Characterization of the collection loop when the shutdown flag is first
observed set after the `k`-th result (absolute counts, the loop having
already collected `n`): exactly the first `k` pending jobs are processed and
tallied; everything after them is abandoned. -/
theorem execLoop_stop_at (run : Job → JobResult) (stop : Nat → Bool) :
    ∀ (jobs : List Job) (k n : Nat) (acc : BatchResult),
    1 ≤ k → k ≤ jobs.length →
    stop (n + k) = true →
    (∀ m, n < m → m < n + k → stop m = false) →
    execLoop run stop jobs n acc =
      { completed := acc.completed + ((jobs.take k).filter (fun j => (run j).success)).length
        failed := acc.failed + ((jobs.take k).filter (fun j => !(run j).success)).length
        failed_jobs := acc.failed_jobs ++ (jobs.take k).filter (fun j => !(run j).success)
        results := acc.results ++ (jobs.take k).map run
        files_completed := acc.files_completed
          + ((jobs.take k).map (fun j => j.file_count.getD 0)).sum } := by
  intro jobs
  induction jobs with
  | nil =>
    intro k n acc hk1 hkle _ _
    simp at hkle
    omega
  | cons j rest ih =>
    intro k n acc hk1 hkle hfire hgap
    simp only [execLoop]
    match k, hk1 with
    | 1, _ =>
      have hs : stop (n + 1) = true := hfire
      rw [if_pos hs]
      by_cases h : (run j).success <;> simp [h]
    | (k' + 2), _ =>
      have hs : stop (n + 1) = false := hgap (n + 1) (by omega) (by omega)
      rw [if_neg (by simp [hs])]
      rw [ih (k' + 1) (n + 1) _ (by omega) (by simpa using hkle)
        (by simpa [Nat.add_assoc, Nat.add_comm, Nat.add_left_comm] using hfire)
        (fun m h1 h2 => hgap m (by omega) (by omega))]
      by_cases h : (run j).success <;>
        simp [h, List.filter_cons, List.append_assoc, Nat.add_assoc, Nat.add_comm,
          Nat.add_left_comm]

/-- **C6** (confirmed). If the shutdown flag is first observed set after the
`k`-th collected result (the in-flight job is completed and recorded before
the flag is consulted), `execute_jobs` returns a partial `BatchResult` built
from exactly the first `k` jobs: the abandoned jobs do not appear in
`results`, are not counted in `completed` or `failed`, and are not added to
`failed_jobs`, and `completed + failed = k`. -/
theorem cancellation_abandons_pending_jobs (ctx : ExecCtx) (jobs : List Job) (k : Nat)
    (hprof : generate_worker_profiles ctx.perf ctx.total_threads ctx.max_workers
      ctx.gpu_instances jobs.length ≠ [])
    (hk1 : 1 ≤ k) (hkle : k ≤ jobs.length)
    (hfire : ctx.stop k = true)
    (hbefore : ∀ m, 1 ≤ m → m < k → ctx.stop m = false) :
    (execute_jobs ctx jobs).results = (jobs.take k).map ctx.run ∧
    (execute_jobs ctx jobs).completed
      = ((jobs.take k).filter (fun j => (ctx.run j).success)).length ∧
    (execute_jobs ctx jobs).failed
      = ((jobs.take k).filter (fun j => !(ctx.run j).success)).length ∧
    (execute_jobs ctx jobs).failed_jobs
      = (jobs.take k).filter (fun j => !(ctx.run j).success) ∧
    (execute_jobs ctx jobs).completed + (execute_jobs ctx jobs).failed = k := by
  have hj : jobs ≠ [] := by
    intro h
    subst h
    simp at hkle
    omega
  have hlen : (generate_worker_profiles ctx.perf ctx.total_threads ctx.max_workers
      ctx.gpu_instances jobs.length).length ≠ 0 := by
    simpa [List.length_eq_zero] using hprof
  rw [execute_jobs, if_neg hj, if_neg hlen]
  rw [execLoop_stop_at ctx.run ctx.stop jobs k 0 ⟨0, 0, [], [], 0⟩ hk1 hkle
    (by simpa using hfire) (fun m h1 h2 => hbefore m (by omega) (by omega))]
  have hsplit : (jobs.take k).length
      = ((jobs.take k).filter (fun j => (ctx.run j).success)).length
        + ((jobs.take k).filter (fun j => !(ctx.run j).success)).length :=
    List.length_eq_length_filter_add _
  have htk : (jobs.take k).length = k := by
    simp [List.length_take]
    omega
  refine ⟨by simp, by simp, by simp, by simp, ?_⟩
  simp only
  omega

/-- Witness for C6: three jobs, flag observed set after the second result —
the third job is abandoned. -/
theorem cancellation_abandons_pending_jobs_witness :
    (execute_jobs ctxStopAfterTwo [jobA, jobB, jobC]).results
      = ([jobA, jobB, jobC].take 2).map ctxStopAfterTwo.run ∧
    (execute_jobs ctxStopAfterTwo [jobA, jobB, jobC]).completed
      = (([jobA, jobB, jobC].take 2).filter
          (fun j => (ctxStopAfterTwo.run j).success)).length ∧
    (execute_jobs ctxStopAfterTwo [jobA, jobB, jobC]).failed
      = (([jobA, jobB, jobC].take 2).filter
          (fun j => !(ctxStopAfterTwo.run j).success)).length ∧
    (execute_jobs ctxStopAfterTwo [jobA, jobB, jobC]).failed_jobs
      = ([jobA, jobB, jobC].take 2).filter
          (fun j => !(ctxStopAfterTwo.run j).success) ∧
    (execute_jobs ctxStopAfterTwo [jobA, jobB, jobC]).completed
      + (execute_jobs ctxStopAfterTwo [jobA, jobB, jobC]).failed = 2 :=
  cancellation_abandons_pending_jobs ctxStopAfterTwo [jobA, jobB, jobC] 2
    (by decide) (by decide) (by decide) (by decide)
    (fun m h1 h2 => by
      have : m = 1 := by omega
      subst this
      rfl)

/-! ## C7 and C10: the retry controller -/

/-- One full round over an always-failing batch: every job is processed, none
succeeds, and the batch's own `failed_jobs` list is the original job list. -/
theorem execute_jobs_all_fail (ctx : ExecCtx) (jobs : List Job)
    (hne : jobs ≠ [])
    (hfail : ∀ j, (ctx.run j).success = false)
    (hstop : ∀ n, ctx.stop n = false)
    (hprof : generate_worker_profiles ctx.perf ctx.total_threads ctx.max_workers
      ctx.gpu_instances jobs.length ≠ []) :
    execute_jobs ctx jobs =
      { completed := 0
        failed := jobs.length
        failed_jobs := jobs
        results := jobs.map ctx.run
        files_completed := (jobs.map (fun j => j.file_count.getD 0)).sum } := by
  have hlen : (generate_worker_profiles ctx.perf ctx.total_threads ctx.max_workers
      ctx.gpu_instances jobs.length).length ≠ 0 := by
    simpa [List.length_eq_zero] using hprof
  rw [execute_jobs, if_neg hne, if_neg hlen]
  rw [execLoop_no_stop ctx.run ctx.stop hstop jobs 0 ⟨0, 0, [], [], 0⟩]
  have hfilters : jobs.filter (fun j => (ctx.run j).success) = [] := by
    rw [List.filter_eq_nil]
    intro j _
    simp [hfail j]
  have hfilterf : jobs.filter (fun j => !(ctx.run j).success) = jobs := by
    rw [List.filter_eq_self]
    intro j _
    simp [hfail j]
  simp [hfilters, hfilterf]

/-- The retry loop over an always-failing batch: the remaining set never
shrinks, no round adds successes, and every round appends one `JobResult` per
job. -/
theorem retryLoop_all_fail (ctx : ExecCtx) (jobs : List Job)
    (hne : jobs ≠ [])
    (hfail : ∀ j, (ctx.run j).success = false)
    (hstop : ∀ n, ctx.stop n = false)
    (hprof : generate_worker_profiles ctx.perf ctx.total_threads ctx.max_workers
      ctx.gpu_instances jobs.length ≠ []) :
    ∀ (fuel completed : Nat) (resultsAcc : List JobResult),
    retryLoop ctx fuel jobs completed resultsAcc
      = (completed, resultsAcc ++ (List.replicate fuel (jobs.map ctx.run)).join, jobs) := by
  intro fuel
  induction fuel with
  | zero => intro completed resultsAcc; simp [retryLoop]
  | succ fuel ih =>
    intro completed resultsAcc
    rw [retryLoop, if_neg hne]
    rw [execute_jobs_all_fail ctx jobs hne hfail hstop hprof]
    rw [ih]
    simp [List.replicate_succ, List.append_assoc]

/-- **C7** (confirmed). For a non-empty `failed_jobs` list and
`max_retries = K ≥ 1`, if every renderer invocation fails,
`retry_failed_jobs` performs exactly `K` rounds (so at most `K`), attempting
each job once per round — `K · len(failed_jobs)` renderer invocations in
total, i.e. at most `K` additional attempts per job — accumulates no
successes, and terminates with every input job still in the returned
`failed_jobs` (the rounds' still-failing jobs being fed to the next round
unchanged). -/
theorem retry_all_failing_bounded_rounds (ctx : ExecCtx) (failed_jobs : List Job) (K : Int)
    (hK : 1 ≤ K)
    (hne : failed_jobs ≠ [])
    (hfail : ∀ j, (ctx.run j).success = false)
    (hstop : ∀ n, ctx.stop n = false)
    (hprof : generate_worker_profiles ctx.perf ctx.total_threads ctx.max_workers
      ctx.gpu_instances failed_jobs.length ≠ []) :
    (retry_failed_jobs ctx failed_jobs (some K)).failed_jobs = failed_jobs ∧
    (retry_failed_jobs ctx failed_jobs (some K)).failed = failed_jobs.length ∧
    (retry_failed_jobs ctx failed_jobs (some K)).completed = 0 ∧
    (retry_failed_jobs ctx failed_jobs (some K)).results.length
      = K.toNat * failed_jobs.length := by
  have hKne : K ≠ 0 := by omega
  have hres : resolveMaxRetries (some K) ctx.max_retry = K := by
    simp [resolveMaxRetries, hKne]
  rw [retry_failed_jobs, hres]
  rw [retryLoop_all_fail ctx failed_jobs hne hfail hstop hprof K.toNat 0 []]
  refine ⟨rfl, rfl, rfl, ?_⟩
  simp [List.length_join, Nat.mul_comm]

/-- Witness for C7: one always-failing job, `K = 2` — two rounds, two
renderer invocations, the job still failed. -/
theorem retry_all_failing_bounded_rounds_witness :
    (retry_failed_jobs ctxNormal [jobA] (some 2)).failed_jobs = [jobA] ∧
    (retry_failed_jobs ctxNormal [jobA] (some 2)).failed = [jobA].length ∧
    (retry_failed_jobs ctxNormal [jobA] (some 2)).completed = 0 ∧
    (retry_failed_jobs ctxNormal [jobA] (some 2)).results.length
      = (2 : Int).toNat * [jobA].length :=
  retry_all_failing_bounded_rounds ctxNormal [jobA] 2 (by decide) (by decide)
    (fun _ => rfl) (fun _ => rfl) (by decide)

/-- **C10** (counterexample). Requesting zero retry rounds through the
`max_retries` parameter is not impossible: `max_retries = -1` is truthy, so
it is not replaced by the default, and `range(1, 0)` is empty — zero rounds
are performed, the renderer is never invoked, and the jobs all stay failed. -/
theorem negative_max_retries_zero_rounds_cex :
    (retry_failed_jobs ctxNormal [jobA] (some (-1))).results = [] ∧
    (retry_failed_jobs ctxNormal [jobA] (some (-1))).completed = 0 ∧
    (retry_failed_jobs ctxNormal [jobA] (some (-1))).failed_jobs = [jobA] := by
  decide

/-- **C10** (amended). `max_retries = 0` is falsy, so Python's
`max_retries or self.max_retry` replaces it with the configured default:
passing 0 behaves exactly like passing `None`, and (for an always-failing
non-empty batch) the configured default number of rounds is performed —
requesting zero rounds by passing 0 is impossible whenever the configured
default is positive, though a *negative* `max_retries` does perform zero
rounds. -/
theorem max_retries_zero_uses_default (ctx : ExecCtx) (failed_jobs : List Job)
    (hne : failed_jobs ≠ [])
    (hfail : ∀ j, (ctx.run j).success = false)
    (hstop : ∀ n, ctx.stop n = false)
    (hprof : generate_worker_profiles ctx.perf ctx.total_threads ctx.max_workers
      ctx.gpu_instances failed_jobs.length ≠ []) :
    (∀ fj : List Job, retry_failed_jobs ctx fj (some 0) = retry_failed_jobs ctx fj none) ∧
    (retry_failed_jobs ctx failed_jobs (some 0)).results.length
      = ctx.max_retry.toNat * failed_jobs.length := by
  constructor
  · intro fj
    rw [retry_failed_jobs, retry_failed_jobs]
    simp [resolveMaxRetries]
  · have hres0 : resolveMaxRetries (some 0) ctx.max_retry = ctx.max_retry := by
      simp [resolveMaxRetries]
    rw [retry_failed_jobs, hres0]
    rw [retryLoop_all_fail ctx failed_jobs hne hfail hstop hprof ctx.max_retry.toNat 0 []]
    simp [List.length_join, Nat.mul_comm]

/-- Witness for the amended C10: with the default `max_retry = 5`, passing 0
performs five rounds over the single always-failing job. -/
theorem max_retries_zero_uses_default_witness :
    (∀ fj : List Job,
      retry_failed_jobs ctxNormal fj (some 0) = retry_failed_jobs ctxNormal fj none) ∧
    (retry_failed_jobs ctxNormal [jobA] (some 0)).results.length
      = ctxNormal.max_retry.toNat * [jobA].length :=
  max_retries_zero_uses_default ctxNormal [jobA] (by decide) (fun _ => rfl)
    (fun _ => rfl) (by decide)

/-! ## C3: failed-file extraction from stderr -/

theorem drive_letter_not_space (c : Char) (h : isDriveLetter c = true) :
    isPySpace c = false := by
  rw [isPySpace, decide_eq_false_iff_not]
  intro hc
  rcases hc with h1 | h1 | h1 | h1 | h1 | h1 <;> subst h1 <;> exact absurd h (by decide)

theorem dotExtAt_sound (run : List Char) (k : Nat) (h : dotExtAt run k = true) :
    ∃ d1 d2 d3 t, run.drop k = '.' :: d1 :: d2 :: d3 :: t ∧ extTriple d1 d2 d3 = true := by
  unfold dotExtAt at h
  split at h
  case _ c0 d1 d2 d3 t heq =>
    rw [Bool.and_eq_true, decide_eq_true_eq] at h
    exact ⟨d1, d2, d3, t, h.1 ▸ heq, h.2⟩
  case _ => exact absurd h (by simp)

theorem lastDotExt_sound (run : List Char) (k : Nat) (h : lastDotExt run = some k) :
    1 ≤ k ∧ k < run.length ∧ dotExtAt run k = true := by
  have hmem : k ∈ (List.range run.length).filter (fun k => 1 ≤ k ∧ dotExtAt run k) :=
    List.mem_of_mem_getLast? (Option.mem_def.mpr h)
  rw [List.mem_filter, List.mem_range] at hmem
  obtain ⟨hrange, hpred⟩ := hmem
  rw [decide_eq_true_eq] at hpred
  exact ⟨hpred.1, hrange, hpred.2⟩

theorem matchAt_sound (l m : List Char) (h : matchAt l = some m) :
    ∃ c u d1 d2 d3,
      m = c :: ':' :: (u ++ '.' :: d1 :: d2 :: d3 :: []) ∧
      isDriveLetter c = true ∧ u ≠ [] ∧ extTriple d1 d2 d3 = true ∧
      ∀ ch ∈ m, isPySpace ch = false := by
  match l with
  | [] => exact absurd h (by simp [matchAt])
  | [c] => exact absurd h (by simp [matchAt])
  | c :: c2 :: rest =>
    rw [matchAt] at h
    by_cases hg : c2 = ':' && isDriveLetter c
    · rw [if_pos hg] at h
      rw [Bool.and_eq_true, decide_eq_true_eq] at hg
      obtain ⟨hc2, hdrive⟩ := hg
      set run := rest.takeWhile (fun ch => ! isPySpace ch) with hrun
      cases hlast : lastDotExt run with
      | none => rw [hlast] at h; exact absurd h (by simp)
      | some k =>
        rw [hlast] at h
        simp only [Option.some.injEq] at h
        obtain ⟨hk1, hklt, hdot⟩ := lastDotExt_sound run k hlast
        obtain ⟨d1, d2, d3, t, hdrop, htriple⟩ := dotExtAt_sound run k hdot
        have hrun_nonspace : ∀ ch ∈ run, isPySpace ch = false := by
          intro ch hch
          have := List.mem_takeWhile_imp (hrun ▸ hch)
          simpa using this
        have htake4 : run.take (k + 4) = run.take k ++ ['.', d1, d2, d3] := by
          rw [List.take_add, hdrop]
          rfl
        have hu_ne : run.take k ≠ [] := by
          have : (run.take k).length = k := by
            rw [List.length_take]
            omega
          intro hnil
          rw [hnil] at this
          simp at this
          omega
        refine ⟨c, run.take k, d1, d2, d3, ?_, hdrive, hu_ne, htriple, ?_⟩
        · rw [← h, htake4]
        · intro ch hch
          rw [← h, htake4] at hch
          simp only [List.mem_cons, List.mem_append] at hch
          rcases hch with h1 | h1 | h1 | h1
          · rw [h1]; exact drive_letter_not_space c hdrive
          · subst h1; rfl
          · exact hrun_nonspace ch (List.take_subset k run h1)
          · have hmem4 : ch ∈ ('.' :: d1 :: d2 :: d3 :: t) := by
              rcases h1 with h2 | h2 | h2 | h2
              · subst h2; simp
              · subst h2; simp
              · subst h2; simp
              · simp at h2
                subst h2; simp
            rw [← hdrop] at hmem4
            exact hrun_nonspace ch (List.drop_subset k run hmem4)
    · rw [if_neg hg] at h
      exact absurd h (by simp)

theorem searchLine_sound (l m : List Char) (h : searchLine l = some m) :
    ∃ c u d1 d2 d3,
      m = c :: ':' :: (u ++ '.' :: d1 :: d2 :: d3 :: []) ∧
      isDriveLetter c = true ∧ u ≠ [] ∧ extTriple d1 d2 d3 = true ∧
      ∀ ch ∈ m, isPySpace ch = false := by
  induction l with
  | nil => exact absurd h (by simp [searchLine])
  | cons c cs ih =>
    rw [searchLine] at h
    cases hm : matchAt (c :: cs) with
    | some m0 =>
      rw [hm] at h
      simp only [Option.some.injEq] at h
      exact h ▸ matchAt_sound (c :: cs) m0 hm
    | none =>
      rw [hm] at h
      exact ih h

/-- **C3** (counterexample). A failing renderer run whose stderr names a
`.orf` file yields an empty `failed_files` list, although the claim's
extension set includes `.orf` (the spec-modelled scan finds the path): the
code only recognizes `.arw .cr2 .cr3 .nef .dng`, and only behind a
drive-letter prefix. -/
theorem extract_failed_files_misses_spec_extensions_cex :
    (run_conversion jobA (.ran 1 "C:/pics/a.orf")).failed_files = [] ∧
    spec_extract_failed_files "C:/pics/a.orf" = ["C:/pics/a.orf"] := by
  decide

/-- **C3** (amended). For every job attempt whose renderer subprocess exits
non-zero, `failed_files` is exactly the result of
`_extract_failed_files(stderr)`, which scans each stderr line for the
leftmost match of `[A-Za-z]:[^\s]+\.(arw|cr2|cr3|nef|dng)` (case-insensitive):
every extracted candidate starts with a drive letter and a colon, contains no
whitespace, has at least one character between the colon and the final dot,
and ends in one of the five extensions `.arw .cr2 .cr3 .nef .dng` — the
extensions `.orf .rw2 .raf .pef` of the claim are not recognized; the list
may be empty even on failure. -/
theorem failed_files_extraction_characterization (job : Job) (rc : Int) (stderr : String)
    (hrc : rc ≠ 0) :
    (run_conversion job (.ran rc stderr)).failed_files = extract_failed_files stderr ∧
    ∀ m ∈ extract_failed_files stderr, ∃ c u d1 d2 d3,
      m.data = c :: ':' :: (u ++ '.' :: d1 :: d2 :: d3 :: []) ∧
      isDriveLetter c = true ∧ u ≠ [] ∧ extTriple d1 d2 d3 = true ∧
      ∀ ch ∈ m.data, isPySpace ch = false := by
  constructor
  · rw [run_conversion]
    simp [hrc]
  · intro m hm
    rw [extract_failed_files] at hm
    by_cases hs : stderr = ""
    · rw [if_pos hs] at hm
      simp at hm
    · rw [if_neg hs] at hm
      rw [List.mem_filterMap] at hm
      obtain ⟨line, _, hline⟩ := hm
      rw [Option.map_eq_some'] at hline
      obtain ⟨cs, hsearch, hmk⟩ := hline
      have hdata : m.data = cs := by
        rw [← hmk]
      exact hdata ▸ searchLine_sound line cs hsearch

/-- Witness for the amended C3 at a concrete failing run whose stderr names
one `.ARW` path. -/
theorem failed_files_extraction_characterization_witness :
    (run_conversion jobA (.ran 1 "err C:/pics/DSC1.ARW bad")).failed_files
      = extract_failed_files "err C:/pics/DSC1.ARW bad" ∧
    ∀ m ∈ extract_failed_files "err C:/pics/DSC1.ARW bad", ∃ c u d1 d2 d3,
      m.data = c :: ':' :: (u ++ '.' :: d1 :: d2 :: d3 :: []) ∧
      isDriveLetter c = true ∧ u ≠ [] ∧ extTriple d1 d2 d3 = true ∧
      ∀ ch ∈ m.data, isPySpace ch = false :=
  failed_files_extraction_characterization jobA 1 "err C:/pics/DSC1.ARW bad" (by decide)

/-! ## C1: disjointness and budget of the generated profiles -/

theorem coveredThreads_nil : coveredThreads [] = ∅ := rfl

theorem coveredThreads_cons (q : WorkerProfile) (t : List WorkerProfile) :
    coveredThreads (q :: t) = threadSet q ∪ coveredThreads t := rfl

theorem coveredThreads_concat (l : List WorkerProfile) (p : WorkerProfile) :
    coveredThreads (l ++ [p]) = coveredThreads l ∪ threadSet p := by
  induction l with
  | nil =>
    rw [List.nil_append, coveredThreads_cons, coveredThreads_nil]
    rw [Finset.union_comm]
  | cons q t ih =>
    rw [List.cons_append, coveredThreads_cons, coveredThreads_cons, ih,
      Finset.union_assoc]

theorem allocStep_eq_of_skip (width maxAlloc : Int) (isGpu : Bool) (s : GenState)
    (hchk : s.assigned + width > maxAlloc) :
    allocStep width maxAlloc isGpu s = s := by
  rw [allocStep, if_pos hchk]

theorem allocStep_eq_of_fits (width maxAlloc : Int) (isGpu : Bool) (s : GenState)
    (hchk : ¬ s.assigned + width > maxAlloc)
    (hnc : ¬ max 0 (s.currentEnd - width + 1) > s.currentEnd) :
    allocStep width maxAlloc isGpu s =
      { currentEnd := max 0 (s.currentEnd - width + 1) - 1
        workerId := s.workerId + 1
        assigned := s.assigned + width
        profiles := s.profiles ++
          [{ worker_id := s.workerId
             ptype := if isGpu then "gpu" else "cpu"
             start_thread := (max 0 (s.currentEnd - width + 1)).toNat
             end_thread := s.currentEnd.toNat
             hex_mask := get_affinity_mask (max 0 (s.currentEnd - width + 1)).toNat
               s.currentEnd.toNat
             use_gpu := isGpu }] } := by
  rw [allocStep, if_neg hchk]
  simp only [if_neg hnc]

theorem allocStep_inv (total : Nat) (maxAlloc width : Int) (isGpu : Bool) (s : GenState)
    (hw : 1 ≤ width) (hma : maxAlloc ≤ (total : Int)) (hinv : GenInv total maxAlloc s) :
    GenInv total maxAlloc (allocStep width maxAlloc isGpu s) := by
  by_cases hchk : s.assigned + width > maxAlloc
  · rw [allocStep_eq_of_skip width maxAlloc isGpu s hchk]
    exact hinv
  · have hle : s.assigned + width ≤ maxAlloc := by omega
    have hce0 : 0 ≤ s.currentEnd := by
      by_contra hneg
      have hm1 : s.currentEnd = -1 := by
        have := hinv.ce_lb
        omega
      have hcard := hinv.card_le
      rw [hm1] at hcard
      omega
    have hstart_le : max 0 (s.currentEnd - width + 1) ≤ s.currentEnd := by omega
    have hnc : ¬ max 0 (s.currentEnd - width + 1) > s.currentEnd := by omega
    rw [allocStep_eq_of_fits width maxAlloc isGpu s hchk hnc]
    have hst0 : (0 : Int) ≤ max 0 (s.currentEnd - width + 1) := le_max_left 0 _
    have hstw : s.currentEnd - width + 1 ≤ max 0 (s.currentEnd - width + 1) :=
      le_max_right 0 _
    have hceub := hinv.ce_ub
    have hcard := hinv.card_le
    refine ⟨?_, ?_, ?_, ?_, ?_, ?_, ?_, ?_⟩
    · simp only; omega
    · simp only; omega
    · have := hinv.assigned_nonneg
      simp only
      omega
    · simp only; omega
    · simp only; omega
    · simp only
      rw [coveredThreads_concat, hinv.covered_eq]
      have hIcc : threadSet
          { worker_id := s.workerId
            ptype := if isGpu then "gpu" else "cpu"
            start_thread := (max 0 (s.currentEnd - width + 1)).toNat
            end_thread := s.currentEnd.toNat
            hex_mask := get_affinity_mask (max 0 (s.currentEnd - width + 1)).toNat
              s.currentEnd.toNat
            use_gpu := isGpu }
          = Finset.Ico (max 0 (s.currentEnd - width + 1)).toNat (s.currentEnd.toNat + 1) := by
        rw [threadSet]
        rw [Nat.Ico_succ_right]
      rw [hIcc]
      have h1 : (s.currentEnd + 1).toNat = s.currentEnd.toNat + 1 := by omega
      have h2 : (max 0 (s.currentEnd - width + 1) - 1 + 1).toNat
          = (max 0 (s.currentEnd - width + 1)).toNat := by omega
      have h3 : (max 0 (s.currentEnd - width + 1)).toNat ≤ s.currentEnd.toNat + 1 := by omega
      have h4 : s.currentEnd.toNat + 1 ≤ total := by omega
      rw [h1, h2, Finset.union_comm]
      exact Finset.Ico_union_Ico_eq_Ico h3 h4
    · simp only
      rw [List.pairwise_append]
      refine ⟨hinv.disj, List.pairwise_singleton _ _, ?_⟩
      intro q hq p hp
      rw [List.mem_singleton] at hp
      subst hp
      have hqlo := hinv.lo_bound q hq
      rw [Finset.disjoint_left]
      intro x hx1 hx2
      rw [threadSet, Finset.mem_Icc] at hx1 hx2
      simp only at hx2
      have : x ≤ s.currentEnd.toNat := hx2.2
      have : q.start_thread ≤ x := hx1.1
      omega
    · simp only
      intro q hq
      rw [List.mem_append] at hq
      rcases hq with hq | hq
      · have := hinv.lo_bound q hq
        omega
      · rw [List.mem_singleton] at hq
        subst hq
        simp only
        omega

theorem allocIter_inv (total : Nat) (maxAlloc width : Int) (isGpu : Bool)
    (hw : 1 ≤ width) (hma : maxAlloc ≤ (total : Int)) :
    ∀ (n : Nat) (s : GenState), GenInv total maxAlloc s →
      GenInv total maxAlloc (allocIter width maxAlloc isGpu n s) := by
  intro n
  induction n with
  | zero => intro s hs; exact hs
  | succ n ih =>
    intro s hs
    rw [allocIter]
    exact ih _ (allocStep_inv total maxAlloc width isGpu s hw hma hs)

/-- **C1** (confirmed). For every call to
`generate_worker_profiles(max_workers, max_gpu, job_count)` with
`reserved_cores < total_threads` — the per-worker thread widths from the
configuration being positive thread counts — the thread ranges
`[start_thread, end_thread]` of all returned profiles are pairwise disjoint,
and the number of distinct thread indices covered by their union never
exceeds `total_threads − reserved_cores`. -/
theorem generate_worker_profiles_disjoint_and_budget (cfg : PerfConfig)
    (total_threads : Nat) (max_workers max_gpu : Int) (job_count : Nat)
    (hres : cfg.reserved_core_count < (total_threads : Int))
    (hgw : 1 ≤ cfg.cpu_threads_gpu_instance)
    (hcw : 1 ≤ cfg.cpu_threads_cpu_instance) :
    (generate_worker_profiles cfg total_threads max_workers max_gpu job_count).Pairwise
      (fun p q => Disjoint (threadSet p) (threadSet q)) ∧
    ((coveredThreads
        (generate_worker_profiles cfg total_threads max_workers max_gpu job_count)).card : Int)
      ≤ (total_threads : Int) - cfg.reserved_core_count := by
  have hma : ((total_threads : Int) - max 0 cfg.reserved_core_count)
      ≤ (total_threads : Int) := by omega
  have h0 : GenInv total_threads ((total_threads : Int) - max 0 cfg.reserved_core_count)
      ⟨(total_threads : Int) - 1, 1, 0, []⟩ := by
    refine ⟨?_, ?_, ?_, ?_, ?_, ?_, ?_, ?_⟩
    · simp only; omega
    · simp only; omega
    · simp only; omega
    · simp only; omega
    · simp only; omega
    · simp only
      have : ((total_threads : Int) - 1 + 1).toNat = total_threads := by omega
      rw [this, Finset.Ico_self]
      rfl
    · exact List.Pairwise.nil
    · intro p hp; exact absurd hp (List.not_mem_nil p)
  have h1 := allocIter_inv total_threads
    ((total_threads : Int) - max 0 cfg.reserved_core_count)
    cfg.cpu_threads_gpu_instance true hgw hma
    (min (min max_workers (job_count : Int)) max_gpu).toNat
    ⟨(total_threads : Int) - 1, 1, 0, []⟩ h0
  have h2 := allocIter_inv total_threads
    ((total_threads : Int) - max 0 cfg.reserved_core_count)
    cfg.cpu_threads_cpu_instance false hcw hma
    (max 0 (min max_workers (job_count : Int)
      - min (min max_workers (job_count : Int)) max_gpu)).toNat
    _ h1
  have hgen : generate_worker_profiles cfg total_threads max_workers max_gpu job_count
      = (allocIter cfg.cpu_threads_cpu_instance
          ((total_threads : Int) - max 0 cfg.reserved_core_count) false
          (max 0 (min max_workers (job_count : Int)
            - min (min max_workers (job_count : Int)) max_gpu)).toNat
          (allocIter cfg.cpu_threads_gpu_instance
            ((total_threads : Int) - max 0 cfg.reserved_core_count) true
            (min (min max_workers (job_count : Int)) max_gpu).toNat
            ⟨(total_threads : Int) - 1, 1, 0, []⟩)).profiles := rfl
  rw [hgen]
  refine ⟨h2.disj, ?_⟩
  rw [h2.covered_eq, Nat.card_Ico]
  have hlb := h2.ce_lb
  have hcard := h2.card_le
  have hassle := h2.assigned_le
  have hnn := h2.assigned_nonneg
  omega

/-- Witness for C1 at the concrete configuration of the spec's worked
example. -/
theorem generate_worker_profiles_disjoint_and_budget_witness :
    (generate_worker_profiles ⟨4, 4, 4⟩ 16 3 2 5).Pairwise
      (fun p q => Disjoint (threadSet p) (threadSet q)) ∧
    ((coveredThreads (generate_worker_profiles ⟨4, 4, 4⟩ 16 3 2 5)).card : Int)
      ≤ ((16 : Nat) : Int) - (⟨4, 4, 4⟩ : PerfConfig).reserved_core_count :=
  generate_worker_profiles_disjoint_and_budget ⟨4, 4, 4⟩ 16 3 2 5
    (by decide) (by decide) (by decide)

end Raw2Jpeg

